import Mathlib

/-!
Verification of the dsmr5-exporter repository.

The development shallowly embeds the three source files:

* src/decoder.rs — the framing state machine (Dsmr5Codec::decode) over a
  byte buffer, modelled as a pure function on a List of bytes that returns
  the decode outcome together with the buffer contents after the call;
* src/metrics.rs — the Metrics instrument store and Metrics::update, with
  f64 instrument values modelled as exact rationals and u64 counter values
  as naturals; the unguarded u64 subtraction in the source underflows
  (panics) when a reported value is below the stored counter value, which
  is modelled by Metrics.update returning an Option;
* src/main.rs — the scrape handler freshness gate and the read-loop step.

The external dsmr5 telegram parser and the prometheus text encoder are
external collaborators; they appear as opaque function parameters.
-/

namespace Dsmr5Exporter

/-! ## Frame decoder (src/decoder.rs) -/

/-- One byte of the serial stream. The decoder only compares bytes for
equality with the two marker bytes, so bytes are modelled as naturals. -/
abbrev Byte := Nat

/-- ASCII code of the start marker byte, the character slash. -/
def startMarker : Byte := 47

/-- ASCII code of the end marker byte, the exclamation mark. -/
def endMarker : Byte := 33

/-- BytesMut::resize semantics: set the length to exactly n, padding with
zeroes when the list is shorter and truncating when it is longer. -/
def resize (l : List Byte) (n : Nat) : List Byte :=
  l.take n ++ List.replicate (n - l.length) 0

/-- Outcome of one Dsmr5Codec::decode call, up to the hand-off of the
extracted frame to the external dsmr5 parser:
size violation (the io::Error built at decoder.rs line 19), need-more-data
(Ok(None)), or an extracted zero-padded frame. -/
inductive DecodeOut where
  | sizeViolation : DecodeOut
  | needMore : DecodeOut
  | frame (padded : List Byte) : DecodeOut
deriving DecidableEq

namespace Dsmr5Codec

/-- Shallow embedding of the frame-extraction part of Dsmr5Codec::decode
(src/decoder.rs, lines 17-45). The function returns the decode outcome
together with the buffer contents after the call (the source mutates the
BytesMut buffer in place; src.reserve only changes capacity and has no
observable effect, so it is not modelled). src.advance(index) is
List.drop index; the source skips the advance when index = 0, which drop
models as well. -/
def decode (src : List Byte) : DecodeOut × List Byte :=
  if src.length > 2048 then (.sizeViolation, src)
  else
    match src.findIdx? (fun x => x == startMarker) with
    | none => (.needMore, src)
    | some index =>
      let src1 := src.drop index
      match src1.findIdx? (fun x => x == endMarker) with
      | none => (.needMore, src1)
      | some j =>
        let end_index := j + 7
        if src1.length < end_index then (.needMore, src1)
        else (.frame (resize (src1.take end_index) 2048), src1.drop end_index)

end Dsmr5Codec

/-! ## Decoded telegram snapshots (the dsmr5::state::State fields consumed
by src/metrics.rs). The dsmr5 crate is an external collaborator; the
structures below record exactly the fields the repository reads from it.
f64 measurement values are modelled as exact rationals, u64 values as
naturals. The fixed-size arrays of the crate (meterreadings, lines,
slaves) are modelled as lists, which the source only ever iterates. -/

/-- One per-tariff meter reading: energy delivered to (`to`) and by (`by`)
the client, in kWh. `to` and `by` are Lean keywords, so the fields are
`to_` and `by_`. -/
structure MeterReading where
  to_ : Option ℚ
  by_ : Option ℚ
deriving DecidableEq

/-- One phase (line) reading, as consumed by Metrics::update. -/
structure Line where
  voltage_sags : Option Nat
  voltage_swells : Option Nat
  voltage : Option ℚ
  current : Option Nat
  active_power_plus : Option ℚ
  active_power_neg : Option ℚ
deriving DecidableEq

/-- One attached sub-device (slave). The source destructures the
meter_reading pair as (_, reading), using only the second component; the
ignored timestamp component is modelled as Unit. -/
structure Slave where
  device_type : Option Nat
  meter_reading : Option (Unit × ℚ)
deriving DecidableEq

/-- The decoded telegram snapshot: the dsmr5::state::State fields that
Metrics::update reads. Every field is independently optional. -/
structure State where
  meterreadings : List MeterReading
  tariff_indicator : Option (Nat × Nat)
  power_delivered : Option ℚ
  power_received : Option ℚ
  power_failures : Option Nat
  long_power_failures : Option Nat
  lines : List Line
  slaves : List Slave
deriving DecidableEq

/-- Full outcome of one Dsmr5Codec::decode call, after the extracted frame
has been handed to the external dsmr5 parser: the two io::Error cases
(size violation, malformed telegram), Ok(None) and Ok(Some(state)). -/
inductive DecodeResult where
  | sizeViolation : DecodeResult
  | needMore : DecodeResult
  | malformed : DecodeResult
  | state (s : State) : DecodeResult
deriving DecidableEq

namespace Dsmr5Codec

/-- Dsmr5Codec::decode including the parsing stage (src/decoder.rs lines
44-55). The external dsmr5 parser (Readout::to_telegram composed with
Result::from, both of whose failures are mapped to an InvalidData
io::Error) appears as the opaque parameter `toState`; it runs only on the
extracted, padded frame, after the frame bytes have been split off the
buffer. -/
def decodeFull (toState : List Byte → Option State) (src : List Byte) :
    DecodeResult × List Byte :=
  match decode src with
  | (.sizeViolation, b) => (.sizeViolation, b)
  | (.needMore, b) => (.needMore, b)
  | (.frame f, b) =>
    match toState f with
    | none => (.malformed, b)
    | some st => (.state st, b)

end Dsmr5Codec

/-! ## Metric store (src/metrics.rs) -/

/-- The instrument values owned by the Metrics struct (src/metrics.rs,
lines 12-31). The registry and the text encoder are exposition plumbing
and carry no instrument state; last_update is wall-clock time and is
modelled separately at the handler (see `handler`). Labelled instrument
vectors (label "tariff" or "phase", always the string of i + 1 for a
source index i, so the label is modelled by the natural i + 1) are total
functions from the label to the value; prometheus counters and gauges
start at 0 and with_label_values materialises an absent child at 0, which
the total function models. -/
@[ext]
structure Metrics where
  energy_delivered_joules_total : Nat → ℚ
  energy_received_joules_total : Nat → ℚ
  energy_tariff : ℤ
  power_delivered_watts : ℚ
  power_received_watts : ℚ
  power_failures_total : Nat
  power_long_failures_total : Nat
  phase_voltage_sags_total : Nat → Nat
  phase_voltage_swells_total : Nat → Nat
  phase_voltage_volts : Nat → ℚ
  phase_current_amperes : Nat → ℚ
  phase_active_power_positive_watts : Nat → ℚ
  phase_active_power_negative_watts : Nat → ℚ
  gas_delivered_cubic_meters_total : ℚ

/-- Metrics::new (src/metrics.rs, lines 34-210): every instrument starts
at value 0. -/
def Metrics.new : Metrics where
  energy_delivered_joules_total := fun _ => 0
  energy_received_joules_total := fun _ => 0
  energy_tariff := 0
  power_delivered_watts := 0
  power_received_watts := 0
  power_failures_total := 0
  power_long_failures_total := 0
  phase_voltage_sags_total := fun _ => 0
  phase_voltage_swells_total := fun _ => 0
  phase_voltage_volts := fun _ => 0
  phase_current_amperes := fun _ => 0
  phase_active_power_positive_watts := fun _ => 0
  phase_active_power_negative_watts := fun _ => 0
  gas_delivered_cubic_meters_total := 0

/-- u64 subtraction a - b as written (unguarded) in the source. When
b > a the subtraction underflows, which panics the process (debug
overflow check; a release build would wrap); either way the source
violates its intent, so underflow is modelled as failure (none). -/
def checkedSub (a b : Nat) : Option Nat :=
  if b ≤ a then some (a - b) else none

/-- i64::from_be_bytes([0, 0, 0, 0, 0, 0, b0, b1]) for bytes b0 b1
(src/metrics.rs lines 230-239): the big-endian two-byte value, always
non-negative because the six high bytes are zero. The byte width is made
explicit with mod 256. -/
def i64FromBe2 (b0 b1 : Nat) : Int := Int.ofNat (b0 % 256 * 256 + b1 % 256)

/-- Body of the meterreadings loop of Metrics::update (src/metrics.rs
lines 213-227) at index i: the counters labelled i + 1 are incremented by
the difference between the new absolute value (kWh converted to joules)
and their currently stored value. -/
def updateMeterReading (i : Nat) (r : MeterReading) (m : Metrics) : Metrics :=
  let m1 :=
    match r.to_ with
    | some energy_delivered_kwh =>
      { m with energy_delivered_joules_total := fun l =>
          if l = i + 1 then
            m.energy_delivered_joules_total (i + 1) +
              (energy_delivered_kwh * 3600000 - m.energy_delivered_joules_total (i + 1))
          else m.energy_delivered_joules_total l }
    | none => m
  match r.by_ with
  | some energy_received_kwh =>
    { m1 with energy_received_joules_total := fun l =>
        if l = i + 1 then
          m1.energy_received_joules_total (i + 1) +
            (energy_received_kwh * 3600000 - m1.energy_received_joules_total (i + 1))
        else m1.energy_received_joules_total l }
  | none => m1

/-- The meterreadings loop of Metrics::update, iterating
state.meterreadings.iter().enumerate() from index i. -/
def updateReadings (i : Nat) (rs : List MeterReading) (m : Metrics) : Metrics :=
  match rs with
  | [] => m
  | r :: rest => updateReadings (i + 1) rest (updateMeterReading i r m)

/-- The pure gauge overwrites of the lines loop body (src/metrics.rs lines
275-297) at index i: voltage, current and the two active powers (power
scaled by 1000) are written directly to the gauges labelled i + 1. -/
def updateLineGauges (i : Nat) (line : Line) (m2 : Metrics) : Metrics :=
  let m3 :=
    match line.voltage with
    | some voltage =>
      { m2 with phase_voltage_volts := fun l =>
          if l = i + 1 then voltage else m2.phase_voltage_volts l }
    | none => m2
  let m4 :=
    match line.current with
    | some current =>
      { m3 with phase_current_amperes := fun l =>
          if l = i + 1 then (current : ℚ) else m3.phase_current_amperes l }
    | none => m3
  let m5 :=
    match line.active_power_plus with
    | some active_power_positive =>
      { m4 with phase_active_power_positive_watts := fun l =>
          if l = i + 1 then active_power_positive * 1000
          else m4.phase_active_power_positive_watts l }
    | none => m4
  match line.active_power_neg with
  | some active_power_negative =>
    { m5 with phase_active_power_negative_watts := fun l =>
        if l = i + 1 then active_power_negative * 1000
        else m5.phase_active_power_negative_watts l }
  | none => m5

/-- Body of the lines loop of Metrics::update (src/metrics.rs lines
260-298) at index i: difference-based counter updates for the sag and
swell counters labelled i + 1 (unguarded u64 subtraction, hence
fallible), then the pure gauge overwrites of `updateLineGauges`. -/
def updateLine (i : Nat) (line : Line) (m : Metrics) : Option Metrics := do
  let m1 ←
    match line.voltage_sags with
    | some voltage_sags =>
      (checkedSub voltage_sags (m.phase_voltage_sags_total (i + 1))).map fun d =>
        { m with phase_voltage_sags_total := fun l =>
            if l = i + 1 then m.phase_voltage_sags_total (i + 1) + d
            else m.phase_voltage_sags_total l }
    | none => pure m
  let m2 ←
    match line.voltage_swells with
    | some voltage_swells =>
      (checkedSub voltage_swells (m1.phase_voltage_swells_total (i + 1))).map fun d =>
        { m1 with phase_voltage_swells_total := fun l =>
            if l = i + 1 then m1.phase_voltage_swells_total (i + 1) + d
            else m1.phase_voltage_swells_total l }
    | none => pure m1
  pure (updateLineGauges i line m2)

/-- The lines loop of Metrics::update, iterating
state.lines.iter().enumerate() from index i. -/
def updateLines (i : Nat) (ls : List Line) (m : Metrics) : Option Metrics :=
  match ls with
  | [] => some m
  | line :: rest => (updateLine i line m).bind (updateLines (i + 1) rest)

/-- The scalar gauge writes of Metrics::update (src/metrics.rs lines
229-248): active tariff (two big-endian bytes as an i64 gauge) and the
instantaneous power gauges, kW scaled to W by 1000, overwritten
directly. -/
def updateScalarGauges (state : State) (m1 : Metrics) : Metrics :=
  let m2 :=
    match state.tariff_indicator with
    | some energy_tariff =>
      { m1 with energy_tariff := i64FromBe2 energy_tariff.1 energy_tariff.2 }
    | none => m1
  let m3 :=
    match state.power_delivered with
    | some power_delivered => { m2 with power_delivered_watts := power_delivered * 1000 }
    | none => m2
  match state.power_received with
  | some power_received => { m3 with power_received_watts := power_received * 1000 }
  | none => m3

/-- The power-failure counter updates of Metrics::update (src/metrics.rs
lines 250-258): difference-based updates of the two u64 counters, with
the unguarded subtraction modelled by `checkedSub`. -/
def updateFailureCounters (state : State) (m4 : Metrics) : Option Metrics := do
  let m5 ←
    match state.power_failures with
    | some power_failures =>
      (checkedSub power_failures m4.power_failures_total).map fun d =>
        { m4 with power_failures_total := m4.power_failures_total + d }
    | none => pure m4
  match state.long_power_failures with
  | some long_power_failures =>
    (checkedSub long_power_failures m5.power_long_failures_total).map fun d =>
      { m5 with power_long_failures_total := m5.power_long_failures_total + d }
  | none => pure m5

/-- The gas sub-device update of Metrics::update (src/metrics.rs lines
300-309): the first slave with device type 3 that reports a reading
drives a difference-based update of the gas counter. -/
def updateGas (state : State) (m7 : Metrics) : Metrics :=
  match state.slaves.find? (fun slave => slave.device_type == some 3) with
  | some gas_slave =>
    match gas_slave.meter_reading with
    | some (_, reading) =>
      { m7 with gas_delivered_cubic_meters_total :=
          m7.gas_delivered_cubic_meters_total +
            (reading - m7.gas_delivered_cubic_meters_total) }
    | none => m7
  | none => m7

/-- Metrics::update (src/metrics.rs, lines 212-312), as the source-order
composition of its blocks: the meterreadings loop, the scalar gauges, the
power-failure counters, the lines loop and the gas update. The refresh of
last_update (line 311) is wall-clock time, reflected at the scrape
handler model. Returns none exactly when one of the unguarded u64
subtractions underflows (which panics in the source). -/
def Metrics.update (m : Metrics) (state : State) : Option Metrics := do
  let m1 := updateReadings 0 state.meterreadings m
  let m4 := updateScalarGauges state m1
  let m6 ← updateFailureCounters state m4
  let m7 ← updateLines 0 state.lines m6
  pure (updateGas state m7)

/-! ## Characterization of the update loops

The per-label maps written by the indexed loops of Metrics::update are
described by `mapAfter`: the element of the iterated list that carries
label l (the element at index l - (i + 1), labels being index + 1), if
any and if its selected field is present, overwrites the value at l with
the converted field value; every other label keeps its old value. -/

/-- Overwrite-when-present: conv v when the optional field is some v,
otherwise the old value. -/
def updOpt (o : Option β) (conv : β → γ) (old : γ) : γ :=
  match o with
  | some v => conv v
  | none => old

@[simp]
theorem updOpt_some (v : β) (conv : β → γ) (old : γ) : updOpt (some v) conv old = conv v := rfl

@[simp]
theorem updOpt_none (conv : β → γ) (old : γ) : updOpt none conv old = old := rfl

/-- The element of xs carrying label l when iteration starts at index i
(labels are index + 1), if any. -/
def atLabel? (xs : List α) (i l : Nat) : Option α :=
  if i + 1 ≤ l then xs[l - (i + 1)]? else none

theorem atLabel?_nil (i l : Nat) : atLabel? ([] : List α) i l = none := by
  unfold atLabel?
  split <;> simp

theorem atLabel?_eq_none_of_lt (xs : List α) {i l : Nat} (h : l < i + 1) :
    atLabel? xs i l = none := by
  unfold atLabel?
  rw [if_neg (by omega)]

theorem atLabel?_cons (x : α) (xs : List α) (i l : Nat) :
    atLabel? (x :: xs) i l = if l = i + 1 then some x else atLabel? xs (i + 1) l := by
  unfold atLabel?
  rcases Nat.lt_trichotomy l (i + 1) with h | h | h
  · rw [if_neg (by omega), if_neg (by omega), if_neg (by omega)]
  · subst h
    rw [if_pos (by omega), if_pos rfl, Nat.sub_self]
    simp
  · rw [if_pos (by omega), if_neg (by omega), if_pos (by omega)]
    have hidx : l - (i + 1) = (l - (i + 2)) + 1 := by omega
    rw [hidx]
    simp

/-- The value of a labelled instrument map after an indexed loop starting
at index i has applied, for each list element, the present values selected
by sel (converted by conv) at label index + 1. -/
def mapAfter (sel : α → Option β) (conv : β → γ) (xs : List α) (i : Nat)
    (old : Nat → γ) : Nat → γ := fun l =>
  updOpt (atLabel? xs i l) (fun x => updOpt (sel x) conv (old l)) (old l)

theorem mapAfter_nil (sel : α → Option β) (conv : β → γ) (i : Nat) (old : Nat → γ) :
    mapAfter sel conv ([] : List α) i old = old := by
  funext l
  simp [mapAfter, atLabel?_nil]

theorem mapAfter_at_none {xs : List α} {i l : Nat} (sel : α → Option β) (conv : β → γ)
    (old : Nat → γ) (h : atLabel? xs i l = none) :
    mapAfter sel conv xs i old l = old l := by
  simp [mapAfter, h]

theorem mapAfter_at_some {xs : List α} {i l : Nat} {x : α} (sel : α → Option β) (conv : β → γ)
    (old : Nat → γ) (h : atLabel? xs i l = some x) :
    mapAfter sel conv xs i old l = updOpt (sel x) conv (old l) := by
  simp [mapAfter, h]

theorem mapAfter_cons_pt (sel : α → Option β) (conv : β → γ) (x : α) (xs : List α)
    (i : Nat) (old : Nat → γ) (l : Nat) :
    mapAfter sel conv (x :: xs) i old l =
      if l = i + 1 then updOpt (sel x) conv (old l)
      else mapAfter sel conv xs (i + 1) old l := by
  unfold mapAfter
  rw [atLabel?_cons]
  by_cases h : l = i + 1
  · rw [if_pos h, if_pos h]
    rfl
  · rw [if_neg h, if_neg h]

/-- Shifting a cons across one loop step: updating labels from index i + 1
over an old map that already carries the step-i overwrite at label i + 1
is the same as updating labels from index i over the plain old map. -/
theorem mapAfter_shift (sel : α → Option β) (conv : β → γ) (x : α) (xs : List α)
    (i : Nat) (old : Nat → γ) :
    mapAfter sel conv xs (i + 1)
        (fun l => if l = i + 1 then updOpt (sel x) conv (old (i + 1)) else old l) =
      mapAfter sel conv (x :: xs) i old := by
  funext l
  rw [mapAfter_cons_pt]
  by_cases h : l = i + 1
  · subst h
    rw [mapAfter_at_none _ _ _ (atLabel?_eq_none_of_lt xs (by omega)), if_pos rfl, if_pos rfl]
  · rw [if_neg h]
    cases hA : atLabel? xs (i + 1) l with
    | none =>
      rw [mapAfter_at_none _ _ _ hA, mapAfter_at_none _ _ _ hA, if_neg h]
    | some y =>
      rw [mapAfter_at_some _ _ _ hA, mapAfter_at_some _ _ _ hA, if_neg h]

theorem updateMeterReading_delivered (i : Nat) (r : MeterReading) (m : Metrics) (l : Nat) :
    (updateMeterReading i r m).energy_delivered_joules_total l =
      if l = i + 1 then
        updOpt r.to_ (fun v => v * 3600000) (m.energy_delivered_joules_total l)
      else m.energy_delivered_joules_total l := by
  rcases r with ⟨rto, rby⟩
  cases rto <;> cases rby <;>
    simp only [updateMeterReading] <;>
    by_cases h : l = i + 1 <;>
    simp [h] <;> ring

theorem updateMeterReading_received (i : Nat) (r : MeterReading) (m : Metrics) (l : Nat) :
    (updateMeterReading i r m).energy_received_joules_total l =
      if l = i + 1 then
        updOpt r.by_ (fun v => v * 3600000) (m.energy_received_joules_total l)
      else m.energy_received_joules_total l := by
  rcases r with ⟨rto, rby⟩
  cases rto <;> cases rby <;>
    simp only [updateMeterReading] <;>
    by_cases h : l = i + 1 <;>
    simp [h] <;> ring

theorem updateMeterReading_rest (i : Nat) (r : MeterReading) (m : Metrics) :
    (updateMeterReading i r m).energy_tariff = m.energy_tariff ∧
    (updateMeterReading i r m).power_delivered_watts = m.power_delivered_watts ∧
    (updateMeterReading i r m).power_received_watts = m.power_received_watts ∧
    (updateMeterReading i r m).power_failures_total = m.power_failures_total ∧
    (updateMeterReading i r m).power_long_failures_total = m.power_long_failures_total ∧
    (updateMeterReading i r m).phase_voltage_sags_total = m.phase_voltage_sags_total ∧
    (updateMeterReading i r m).phase_voltage_swells_total = m.phase_voltage_swells_total ∧
    (updateMeterReading i r m).phase_voltage_volts = m.phase_voltage_volts ∧
    (updateMeterReading i r m).phase_current_amperes = m.phase_current_amperes ∧
    (updateMeterReading i r m).phase_active_power_positive_watts =
      m.phase_active_power_positive_watts ∧
    (updateMeterReading i r m).phase_active_power_negative_watts =
      m.phase_active_power_negative_watts ∧
    (updateMeterReading i r m).gas_delivered_cubic_meters_total =
      m.gas_delivered_cubic_meters_total := by
  rcases r with ⟨rto, rby⟩
  cases rto <;> cases rby <;>
    exact ⟨rfl, rfl, rfl, rfl, rfl, rfl, rfl, rfl, rfl, rfl, rfl, rfl⟩

theorem updateReadings_delivered (rs : List MeterReading) : ∀ (i : Nat) (m : Metrics) (l : Nat),
    (updateReadings i rs m).energy_delivered_joules_total l =
      mapAfter (fun r => r.to_) (fun v => v * 3600000) rs i
        m.energy_delivered_joules_total l := by
  induction rs with
  | nil =>
    intro i m l
    simp [updateReadings, mapAfter_nil]
  | cons r rest ih =>
    intro i m l
    simp only [updateReadings]
    rw [ih, mapAfter_cons_pt]
    by_cases h : l = i + 1
    · rw [if_pos h]
      subst h
      rw [mapAfter_at_none _ _ _ (atLabel?_eq_none_of_lt rest (by omega))]
      rw [updateMeterReading_delivered, if_pos rfl]
    · rw [if_neg h]
      cases hA : atLabel? rest (i + 1) l with
      | none =>
        rw [mapAfter_at_none _ _ _ hA, mapAfter_at_none _ _ _ hA]
        rw [updateMeterReading_delivered, if_neg h]
      | some x =>
        rw [mapAfter_at_some _ _ _ hA, mapAfter_at_some _ _ _ hA]
        cases x.to_ with
        | some v => rfl
        | none =>
          rw [updOpt_none, updOpt_none, updateMeterReading_delivered, if_neg h]

theorem updateReadings_received (rs : List MeterReading) : ∀ (i : Nat) (m : Metrics) (l : Nat),
    (updateReadings i rs m).energy_received_joules_total l =
      mapAfter (fun r => r.by_) (fun v => v * 3600000) rs i
        m.energy_received_joules_total l := by
  induction rs with
  | nil =>
    intro i m l
    simp [updateReadings, mapAfter_nil]
  | cons r rest ih =>
    intro i m l
    simp only [updateReadings]
    rw [ih, mapAfter_cons_pt]
    by_cases h : l = i + 1
    · rw [if_pos h]
      subst h
      rw [mapAfter_at_none _ _ _ (atLabel?_eq_none_of_lt rest (by omega))]
      rw [updateMeterReading_received, if_pos rfl]
    · rw [if_neg h]
      cases hA : atLabel? rest (i + 1) l with
      | none =>
        rw [mapAfter_at_none _ _ _ hA, mapAfter_at_none _ _ _ hA]
        rw [updateMeterReading_received, if_neg h]
      | some x =>
        rw [mapAfter_at_some _ _ _ hA, mapAfter_at_some _ _ _ hA]
        cases x.by_ with
        | some v => rfl
        | none =>
          rw [updOpt_none, updOpt_none, updateMeterReading_received, if_neg h]

theorem updateReadings_rest (rs : List MeterReading) : ∀ (i : Nat) (m : Metrics),
    (updateReadings i rs m).energy_tariff = m.energy_tariff ∧
    (updateReadings i rs m).power_delivered_watts = m.power_delivered_watts ∧
    (updateReadings i rs m).power_received_watts = m.power_received_watts ∧
    (updateReadings i rs m).power_failures_total = m.power_failures_total ∧
    (updateReadings i rs m).power_long_failures_total = m.power_long_failures_total ∧
    (updateReadings i rs m).phase_voltage_sags_total = m.phase_voltage_sags_total ∧
    (updateReadings i rs m).phase_voltage_swells_total = m.phase_voltage_swells_total ∧
    (updateReadings i rs m).phase_voltage_volts = m.phase_voltage_volts ∧
    (updateReadings i rs m).phase_current_amperes = m.phase_current_amperes ∧
    (updateReadings i rs m).phase_active_power_positive_watts =
      m.phase_active_power_positive_watts ∧
    (updateReadings i rs m).phase_active_power_negative_watts =
      m.phase_active_power_negative_watts ∧
    (updateReadings i rs m).gas_delivered_cubic_meters_total =
      m.gas_delivered_cubic_meters_total := by
  induction rs with
  | nil =>
    intro i m
    exact ⟨rfl, rfl, rfl, rfl, rfl, rfl, rfl, rfl, rfl, rfl, rfl, rfl⟩
  | cons r rest ih =>
    intro i m
    simp only [updateReadings]
    obtain ⟨h1, h2, h3, h4, h5, h6, h7, h8, h9, h10, h11, h12⟩ :=
      ih (i + 1) (updateMeterReading i r m)
    obtain ⟨g1, g2, g3, g4, g5, g6, g7, g8, g9, g10, g11, g12⟩ :=
      updateMeterReading_rest i r m
    exact ⟨h1.trans g1, h2.trans g2, h3.trans g3, h4.trans g4, h5.trans g5, h6.trans g6,
      h7.trans g7, h8.trans g8, h9.trans g9, h10.trans g10, h11.trans g11, h12.trans g12⟩

/-- The net effect of the meterreadings loop: the two energy counter maps
become the corresponding reported absolute values (in joules) at the
labels that carry a present reading, everything else is untouched. -/
def readingsResult (i : Nat) (rs : List MeterReading) (m : Metrics) : Metrics :=
  { m with
    energy_delivered_joules_total :=
      mapAfter (fun r => r.to_) (fun v => v * 3600000) rs i
        m.energy_delivered_joules_total,
    energy_received_joules_total :=
      mapAfter (fun r => r.by_) (fun v => v * 3600000) rs i
        m.energy_received_joules_total }

theorem updateReadings_eq (i : Nat) (rs : List MeterReading) (m : Metrics) :
    updateReadings i rs m = readingsResult i rs m := by
  obtain ⟨h1, h2, h3, h4, h5, h6, h7, h8, h9, h10, h11, h12⟩ := updateReadings_rest rs i m
  refine Metrics.ext ?_ ?_ h1 h2 h3 h4 h5 h6 h7 h8 h9 h10 h11 h12
  · funext l
    exact updateReadings_delivered rs i m l
  · funext l
    exact updateReadings_received rs i m l

/-- Non-underflow check for one optional u64 counter field against the
currently stored value: true when the field is absent or at least the
stored value. -/
def okOpt (o : Option Nat) (cur : Nat) : Bool :=
  match o with
  | some v => decide (cur ≤ v)
  | none => true

@[simp]
theorem okOpt_some (v cur : Nat) : okOpt (some v) cur = decide (cur ≤ v) := rfl

@[simp]
theorem okOpt_none (cur : Nat) : okOpt none cur = true := rfl

/-- The condition under which the body of the lines loop at index i does
not underflow: both present sag/swell counts are at least the stored
counter values at label i + 1. -/
def lineOk (i : Nat) (line : Line) (sags swells : Nat → Nat) : Bool :=
  okOpt line.voltage_sags (sags (i + 1)) && okOpt line.voltage_swells (swells (i + 1))

/-- The condition under which the whole lines loop starting at index i
does not underflow. Each label is written at most once, by the element
that carries it, so the checks all read the pre-loop maps. -/
def linesOk (i : Nat) (ls : List Line) (sags swells : Nat → Nat) : Bool :=
  match ls with
  | [] => true
  | line :: rest => lineOk i line sags swells && linesOk (i + 1) rest sags swells

/-- The net effect of one successful lines loop body at index i. -/
def lineResult (i : Nat) (line : Line) (m : Metrics) : Metrics :=
  { m with
    phase_voltage_sags_total := fun l =>
      if l = i + 1 then
        updOpt line.voltage_sags (fun v => v) (m.phase_voltage_sags_total (i + 1))
      else m.phase_voltage_sags_total l,
    phase_voltage_swells_total := fun l =>
      if l = i + 1 then
        updOpt line.voltage_swells (fun v => v) (m.phase_voltage_swells_total (i + 1))
      else m.phase_voltage_swells_total l,
    phase_voltage_volts := fun l =>
      if l = i + 1 then
        updOpt line.voltage (fun v => v) (m.phase_voltage_volts (i + 1))
      else m.phase_voltage_volts l,
    phase_current_amperes := fun l =>
      if l = i + 1 then
        updOpt line.current (fun v => (v : ℚ)) (m.phase_current_amperes (i + 1))
      else m.phase_current_amperes l,
    phase_active_power_positive_watts := fun l =>
      if l = i + 1 then
        updOpt line.active_power_plus (fun v => v * 1000)
          (m.phase_active_power_positive_watts (i + 1))
      else m.phase_active_power_positive_watts l,
    phase_active_power_negative_watts := fun l =>
      if l = i + 1 then
        updOpt line.active_power_neg (fun v => v * 1000)
          (m.phase_active_power_negative_watts (i + 1))
      else m.phase_active_power_negative_watts l }

/-- The net effect of the whole successful lines loop starting at index
i: each of the six phase maps carries the reported values at the labels
whose line reports them. -/
def linesResult (i : Nat) (ls : List Line) (m : Metrics) : Metrics :=
  { m with
    phase_voltage_sags_total :=
      mapAfter (fun line => line.voltage_sags) (fun v => v) ls i
        m.phase_voltage_sags_total,
    phase_voltage_swells_total :=
      mapAfter (fun line => line.voltage_swells) (fun v => v) ls i
        m.phase_voltage_swells_total,
    phase_voltage_volts :=
      mapAfter (fun line => line.voltage) (fun v => v) ls i m.phase_voltage_volts,
    phase_current_amperes :=
      mapAfter (fun line => line.current) (fun v : Nat => (v : ℚ)) ls i
        m.phase_current_amperes,
    phase_active_power_positive_watts :=
      mapAfter (fun line => line.active_power_plus) (fun v => v * 1000) ls i
        m.phase_active_power_positive_watts,
    phase_active_power_negative_watts :=
      mapAfter (fun line => line.active_power_neg) (fun v => v * 1000) ls i
        m.phase_active_power_negative_watts }

theorem updateLineGauges_eq (i : Nat) (line : Line) (m2 : Metrics) :
    updateLineGauges i line m2 =
      { m2 with
        phase_voltage_volts := fun l =>
          if l = i + 1 then
            updOpt line.voltage (fun v => v) (m2.phase_voltage_volts (i + 1))
          else m2.phase_voltage_volts l,
        phase_current_amperes := fun l =>
          if l = i + 1 then
            updOpt line.current (fun v => (v : ℚ)) (m2.phase_current_amperes (i + 1))
          else m2.phase_current_amperes l,
        phase_active_power_positive_watts := fun l =>
          if l = i + 1 then
            updOpt line.active_power_plus (fun v => v * 1000)
              (m2.phase_active_power_positive_watts (i + 1))
          else m2.phase_active_power_positive_watts l,
        phase_active_power_negative_watts := fun l =>
          if l = i + 1 then
            updOpt line.active_power_neg (fun v => v * 1000)
              (m2.phase_active_power_negative_watts (i + 1))
          else m2.phase_active_power_negative_watts l } := by
  rcases line with ⟨ls, sw, vo, cu, ap, an⟩
  cases vo <;> cases cu <;> cases ap <;> cases an <;>
    · refine Metrics.ext rfl rfl rfl rfl rfl rfl rfl rfl rfl ?_ ?_ ?_ ?_ rfl <;>
      · funext l
        by_cases h : l = i + 1 <;> simp [updateLineGauges, h]

theorem updateLine_eq (i : Nat) (line : Line) (m : Metrics) :
    updateLine i line m =
      if lineOk i line m.phase_voltage_sags_total m.phase_voltage_swells_total then
        some (lineResult i line m)
      else none := by
  have hfin : ∀ m2 : Metrics,
      m2.phase_voltage_sags_total = (lineResult i line m).phase_voltage_sags_total →
      m2.phase_voltage_swells_total = (lineResult i line m).phase_voltage_swells_total →
      m2.phase_voltage_volts = m.phase_voltage_volts →
      m2.phase_current_amperes = m.phase_current_amperes →
      m2.phase_active_power_positive_watts = m.phase_active_power_positive_watts →
      m2.phase_active_power_negative_watts = m.phase_active_power_negative_watts →
      m2.energy_delivered_joules_total = m.energy_delivered_joules_total →
      m2.energy_received_joules_total = m.energy_received_joules_total →
      m2.energy_tariff = m.energy_tariff →
      m2.power_delivered_watts = m.power_delivered_watts →
      m2.power_received_watts = m.power_received_watts →
      m2.power_failures_total = m.power_failures_total →
      m2.power_long_failures_total = m.power_long_failures_total →
      m2.gas_delivered_cubic_meters_total = m.gas_delivered_cubic_meters_total →
      updateLineGauges i line m2 = lineResult i line m := by
    intro m2 hsag hsw hvo hcu hap han h1 h2 h3 h4 h5 h6 h7 h8
    rw [updateLineGauges_eq]
    refine Metrics.ext h1 h2 h3 h4 h5 h6 h7 hsag hsw ?_ ?_ ?_ ?_ h8 <;>
      · funext l
        by_cases hl : l = i + 1 <;>
          simp only [hvo, hcu, hap, han, if_pos, if_neg, hl, lineResult, if_true]
  rcases line with ⟨ls, sw, vo, cu, ap, an⟩
  cases ls with
  | none =>
    cases sw with
    | none =>
      simp only [updateLine, Option.pure_def, Option.bind_eq_bind, Option.some_bind]
      split
      next hok =>
        refine congrArg some (hfin m ?_ ?_ rfl rfl rfl rfl rfl rfl rfl rfl rfl rfl rfl rfl)
        · funext l
          by_cases hl : l = i + 1 <;> simp [lineResult, hl]
        · funext l
          by_cases hl : l = i + 1 <;> simp [lineResult, hl]
      next hok => simp [lineOk] at hok
    | some w =>
      simp only [updateLine, checkedSub, Option.pure_def, Option.bind_eq_bind,
        Option.some_bind]
      by_cases h2 : m.phase_voltage_swells_total (i + 1) ≤ w
      · rw [if_pos h2]
        simp only [Option.map_some', Option.some_bind]
        split
        next hok =>
          refine congrArg some (hfin _ ?_ ?_ rfl rfl rfl rfl rfl rfl rfl rfl rfl rfl rfl rfl)
          · funext l
            by_cases hl : l = i + 1 <;> simp [lineResult, hl]
          · funext l
            by_cases hl : l = i + 1 <;> simp [lineResult, hl]
            omega
        next hok => simp [lineOk, h2] at hok
      · rw [if_neg h2]
        simp only [Option.map_none', Option.none_bind]
        split
        next hok => simp [lineOk, h2] at hok
        next hok => rfl
  | some v =>
    cases sw with
    | none =>
      simp only [updateLine, checkedSub, Option.pure_def, Option.bind_eq_bind,
        Option.some_bind]
      by_cases h1 : m.phase_voltage_sags_total (i + 1) ≤ v
      · rw [if_pos h1]
        simp only [Option.map_some', Option.some_bind]
        split
        next hok =>
          refine congrArg some (hfin _ ?_ ?_ rfl rfl rfl rfl rfl rfl rfl rfl rfl rfl rfl rfl)
          · funext l
            by_cases hl : l = i + 1 <;> simp [lineResult, hl]
            omega
          · funext l
            by_cases hl : l = i + 1 <;> simp [lineResult, hl]
        next hok => simp [lineOk, h1] at hok
      · rw [if_neg h1]
        simp only [Option.map_none', Option.none_bind]
        split
        next hok => simp [lineOk, h1] at hok
        next hok => rfl
    | some w =>
      simp only [updateLine, checkedSub, Option.pure_def, Option.bind_eq_bind,
        Option.some_bind]
      by_cases h1 : m.phase_voltage_sags_total (i + 1) ≤ v
      · rw [if_pos h1]
        simp only [Option.map_some', Option.some_bind]
        by_cases h2 : m.phase_voltage_swells_total (i + 1) ≤ w
        · rw [if_pos h2]
          simp only [Option.map_some', Option.some_bind]
          split
          next hok =>
            refine congrArg some
              (hfin _ ?_ ?_ rfl rfl rfl rfl rfl rfl rfl rfl rfl rfl rfl rfl)
            · funext l
              by_cases hl : l = i + 1 <;> simp [lineResult, hl]
              omega
            · funext l
              by_cases hl : l = i + 1 <;> simp [lineResult, hl]
              omega
          next hok => simp [lineOk, h1, h2] at hok
        · rw [if_neg h2]
          simp only [Option.map_none', Option.none_bind]
          split
          next hok => simp [lineOk, h1, h2] at hok
          next hok => rfl
      · rw [if_neg h1]
        simp only [Option.map_none', Option.none_bind]
        split
        next hok => simp [lineOk, h1] at hok
        next hok => rfl

theorem linesOk_congr (ls : List Line) : ∀ (i : Nat) (s1 w1 s2 w2 : Nat → Nat),
    (∀ l, i + 1 ≤ l → s1 l = s2 l) → (∀ l, i + 1 ≤ l → w1 l = w2 l) →
    linesOk i ls s1 w1 = linesOk i ls s2 w2 := by
  induction ls with
  | nil =>
    intro i s1 w1 s2 w2 _ _
    rfl
  | cons line rest ih =>
    intro i s1 w1 s2 w2 hs hw
    simp only [linesOk, lineOk]
    rw [hs (i + 1) (by omega), hw (i + 1) (by omega),
      ih (i + 1) s1 w1 s2 w2 (fun l hl => hs l (by omega)) (fun l hl => hw l (by omega))]

theorem updateLines_eq (ls : List Line) : ∀ (i : Nat) (m : Metrics),
    updateLines i ls m =
      if linesOk i ls m.phase_voltage_sags_total m.phase_voltage_swells_total then
        some (linesResult i ls m)
      else none := by
  induction ls with
  | nil =>
    intro i m
    simp only [updateLines, linesOk]
    rw [if_pos trivial]
    refine congrArg some (Metrics.ext rfl rfl rfl rfl rfl rfl rfl ?_ ?_ ?_ ?_ ?_ ?_ rfl) <;>
      · simp only [linesResult]
        exact (mapAfter_nil _ _ _ _).symm
  | cons line rest ih =>
    intro i m
    simp only [updateLines]
    rw [updateLine_eq]
    by_cases hOk :
        lineOk i line m.phase_voltage_sags_total m.phase_voltage_swells_total = true
    · rw [if_pos hOk]
      simp only [Option.some_bind]
      rw [ih]
      have hs : ∀ l, i + 1 + 1 ≤ l →
          (lineResult i line m).phase_voltage_sags_total l =
            m.phase_voltage_sags_total l := by
        intro l hl
        simp only [lineResult]
        rw [if_neg (by omega)]
      have hw : ∀ l, i + 1 + 1 ≤ l →
          (lineResult i line m).phase_voltage_swells_total l =
            m.phase_voltage_swells_total l := by
        intro l hl
        simp only [lineResult]
        rw [if_neg (by omega)]
      rw [linesOk_congr rest (i + 1) _ _
        m.phase_voltage_sags_total m.phase_voltage_swells_total hs hw]
      have hco : linesOk i (line :: rest)
          m.phase_voltage_sags_total m.phase_voltage_swells_total =
          linesOk (i + 1) rest m.phase_voltage_sags_total m.phase_voltage_swells_total := by
        simp [linesOk, hOk]
      rw [hco]
      by_cases hOk2 :
          linesOk (i + 1) rest m.phase_voltage_sags_total m.phase_voltage_swells_total = true
      · rw [if_pos hOk2, if_pos hOk2]
        refine congrArg some
          (Metrics.ext rfl rfl rfl rfl rfl rfl rfl ?_ ?_ ?_ ?_ ?_ ?_ rfl) <;>
          · simp only [linesResult, lineResult]
            exact mapAfter_shift _ _ _ _ _ _
      · rw [if_neg hOk2, if_neg hOk2]
    · rw [if_neg hOk]
      have hlf : lineOk i line m.phase_voltage_sags_total m.phase_voltage_swells_total
          = false := by
        revert hOk
        cases lineOk i line m.phase_voltage_sags_total m.phase_voltage_swells_total <;> simp
      simp [linesOk, hlf]

theorem updateScalarGauges_eq (state : State) (m1 : Metrics) :
    updateScalarGauges state m1 =
      { m1 with
        energy_tariff := updOpt state.tariff_indicator
          (fun t => i64FromBe2 t.1 t.2) m1.energy_tariff,
        power_delivered_watts := updOpt state.power_delivered
          (fun v => v * 1000) m1.power_delivered_watts,
        power_received_watts := updOpt state.power_received
          (fun v => v * 1000) m1.power_received_watts } := by
  rcases state with ⟨rs, ti, pd, pr, pf, plf, ls, sl⟩
  cases ti <;> cases pd <;> cases pr <;> rfl

/-- The condition under which the power-failure counter updates do not
underflow: both present counts are at least the stored counter values. -/
def failuresOk (state : State) (pf plf : Nat) : Bool :=
  okOpt state.power_failures pf && okOpt state.long_power_failures plf

theorem updateFailureCounters_eq (state : State) (m4 : Metrics) :
    updateFailureCounters state m4 =
      if failuresOk state m4.power_failures_total m4.power_long_failures_total then
        some
          { m4 with
            power_failures_total := updOpt state.power_failures (fun v => v)
              m4.power_failures_total,
            power_long_failures_total := updOpt state.long_power_failures (fun v => v)
              m4.power_long_failures_total }
      else none := by
  rcases state with ⟨rs, ti, pd, pr, pf, plf, ls, sl⟩
  cases pf with
  | none =>
    cases plf with
    | none =>
      simp only [updateFailureCounters, Option.pure_def, Option.bind_eq_bind,
        Option.some_bind, failuresOk, okOpt_none, Bool.and_self]
      rw [if_pos trivial]
      rfl
    | some w =>
      simp only [updateFailureCounters, checkedSub, Option.pure_def, Option.bind_eq_bind,
        Option.some_bind, failuresOk, okOpt_none, okOpt_some, Bool.true_and]
      by_cases h2 : m4.power_long_failures_total ≤ w
      · rw [if_pos h2]
        simp only [Option.map_some']
        rw [if_pos (by simp [h2])]
        refine congrArg some
          (Metrics.ext rfl rfl rfl rfl rfl rfl ?_ rfl rfl rfl rfl rfl rfl rfl)
        simp only [updOpt_some]
        omega
      · rw [if_neg h2]
        simp only [Option.map_none']
        rw [if_neg (by simp [h2])]
  | some v =>
    cases plf with
    | none =>
      simp only [updateFailureCounters, checkedSub, Option.pure_def, Option.bind_eq_bind,
        failuresOk, okOpt_none, okOpt_some, Bool.and_true]
      by_cases h1 : m4.power_failures_total ≤ v
      · rw [if_pos h1]
        simp only [Option.map_some', Option.some_bind]
        rw [if_pos (by simp [h1])]
        refine congrArg some
          (Metrics.ext rfl rfl rfl rfl rfl ?_ rfl rfl rfl rfl rfl rfl rfl rfl)
        simp only [updOpt_some]
        omega
      · rw [if_neg h1]
        simp only [Option.map_none', Option.none_bind]
        rw [if_neg (by simp [h1])]
    | some w =>
      simp only [updateFailureCounters, checkedSub, Option.pure_def, Option.bind_eq_bind,
        failuresOk, okOpt_some]
      by_cases h1 : m4.power_failures_total ≤ v
      · rw [if_pos h1]
        simp only [Option.map_some', Option.some_bind]
        by_cases h2 : m4.power_long_failures_total ≤ w
        · rw [if_pos h2]
          simp only [Option.map_some']
          rw [if_pos (by simp [h1, h2])]
          refine congrArg some
            (Metrics.ext rfl rfl rfl rfl rfl ?_ ?_ rfl rfl rfl rfl rfl rfl rfl) <;>
            · simp only [updOpt_some]
              omega
        · rw [if_neg h2]
          simp only [Option.map_none']
          rw [if_neg (by simp [h1, h2])]
      · rw [if_neg h1]
        simp only [Option.map_none', Option.none_bind]
        rw [if_neg (by simp [h1])]

/-- The gas counter value after the gas sub-device update: the reading of
the first slave with device type 3, when present, else the old value. -/
def gasValue (slaves : List Slave) (old : ℚ) : ℚ :=
  updOpt (slaves.find? (fun slave => slave.device_type == some 3))
    (fun gas_slave => updOpt gas_slave.meter_reading (fun p => p.2) old) old

theorem updateGas_eq (state : State) (m7 : Metrics) :
    updateGas state m7 =
      { m7 with
        gas_delivered_cubic_meters_total :=
          gasValue state.slaves m7.gas_delivered_cubic_meters_total } := by
  cases hf : state.slaves.find? (fun slave => slave.device_type == some 3) with
  | none =>
    simp only [updateGas, gasValue, hf, updOpt_none]
  | some gs =>
    cases hmr : gs.meter_reading with
    | none =>
      simp only [updateGas, gasValue, hf, hmr, updOpt_some, updOpt_none]
    | some pr =>
      rcases pr with ⟨u, reading⟩
      simp only [updateGas, gasValue, hf, hmr, updOpt_some]
      refine Metrics.ext rfl rfl rfl rfl rfl rfl rfl rfl rfl rfl rfl rfl rfl ?_
      ring

/-- The condition under which Metrics::update does not panic: none of the
unguarded u64 subtractions (power failures, long power failures, per-phase
sags and swells) underflows. -/
def updateOk (state : State) (m : Metrics) : Bool :=
  failuresOk state m.power_failures_total m.power_long_failures_total &&
  linesOk 0 state.lines m.phase_voltage_sags_total m.phase_voltage_swells_total

/-- The complete net effect of one successful Metrics::update: every
counter carries the most recently reported absolute value at the labels
that report one, every gauge the most recently reported instantaneous
value, everything not reported keeps its old value. -/
def updateResult (state : State) (m : Metrics) : Metrics :=
  { m with
    energy_delivered_joules_total := mapAfter (fun r => r.to_) (fun v => v * 3600000)
      state.meterreadings 0 m.energy_delivered_joules_total,
    energy_received_joules_total := mapAfter (fun r => r.by_) (fun v => v * 3600000)
      state.meterreadings 0 m.energy_received_joules_total,
    energy_tariff := updOpt state.tariff_indicator (fun t => i64FromBe2 t.1 t.2)
      m.energy_tariff,
    power_delivered_watts := updOpt state.power_delivered (fun v => v * 1000)
      m.power_delivered_watts,
    power_received_watts := updOpt state.power_received (fun v => v * 1000)
      m.power_received_watts,
    power_failures_total := updOpt state.power_failures (fun v => v)
      m.power_failures_total,
    power_long_failures_total := updOpt state.long_power_failures (fun v => v)
      m.power_long_failures_total,
    phase_voltage_sags_total := mapAfter (fun line => line.voltage_sags) (fun v => v)
      state.lines 0 m.phase_voltage_sags_total,
    phase_voltage_swells_total := mapAfter (fun line => line.voltage_swells) (fun v => v)
      state.lines 0 m.phase_voltage_swells_total,
    phase_voltage_volts := mapAfter (fun line => line.voltage) (fun v => v)
      state.lines 0 m.phase_voltage_volts,
    phase_current_amperes := mapAfter (fun line => line.current) (fun v : Nat => (v : ℚ))
      state.lines 0 m.phase_current_amperes,
    phase_active_power_positive_watts := mapAfter (fun line => line.active_power_plus)
      (fun v => v * 1000) state.lines 0 m.phase_active_power_positive_watts,
    phase_active_power_negative_watts := mapAfter (fun line => line.active_power_neg)
      (fun v => v * 1000) state.lines 0 m.phase_active_power_negative_watts,
    gas_delivered_cubic_meters_total :=
      gasValue state.slaves m.gas_delivered_cubic_meters_total }

theorem Metrics.update_eq (m : Metrics) (state : State) :
    m.update state = if updateOk state m then some (updateResult state m) else none := by
  simp only [Metrics.update, Option.pure_def, Option.bind_eq_bind]
  rw [updateReadings_eq, updateScalarGauges_eq, updateFailureCounters_eq]
  dsimp only [readingsResult]
  by_cases hF : failuresOk state m.power_failures_total m.power_long_failures_total = true
  · rw [if_pos hF]
    simp only [Option.some_bind]
    rw [updateLines_eq]
    dsimp only [readingsResult]
    by_cases hL : linesOk 0 state.lines
        m.phase_voltage_sags_total m.phase_voltage_swells_total = true
    · rw [if_pos hL]
      simp only [Option.some_bind]
      rw [updateGas_eq]
      rw [if_pos (show updateOk state m = true by simp [updateOk, hF, hL])]
      rfl
    · rw [if_neg hL]
      simp only [Option.none_bind]
      rw [if_neg (show ¬updateOk state m = true by simp [updateOk, hL])]
  · rw [if_neg hF]
    simp only [Option.none_bind]
    rw [if_neg (show ¬updateOk state m = true by simp [updateOk, hF])]

/-! ## Claims about the decoder -/

/-- C3: Dsmr5Codec::decode returns a size-violation error exactly when the
buffered length exceeds the maximum frame size (2048 bytes) before a
complete frame has been recognized; in that case no partial frame is
emitted and the buffer is left exactly as it was (no resynchronization
is performed, so the error cannot be cleared by re-decoding the same
buffer: the caller must discard the connection state). -/
theorem spec_c3 (src : List Byte) :
    ((Dsmr5Codec.decode src).1 = DecodeOut.sizeViolation ↔ 2048 < src.length) ∧
    (2048 < src.length → Dsmr5Codec.decode src = (DecodeOut.sizeViolation, src)) := by
  refine ⟨⟨?_, ?_⟩, ?_⟩
  · intro h
    by_contra hlen
    unfold Dsmr5Codec.decode at h
    rw [if_neg hlen] at h
    split at h
    · simp at h
    · dsimp only at h
      split at h
      · simp at h
      · split at h
        · simp at h
        · simp at h
  · intro h
    unfold Dsmr5Codec.decode
    rw [if_pos h]
  · intro h
    unfold Dsmr5Codec.decode
    rw [if_pos h]

/-- C3 witness: a buffer one byte over the limit produces the size
violation with the buffer untouched. -/
theorem spec_c3_witness :
    Dsmr5Codec.decode (List.replicate 2049 0) =
      (DecodeOut.sizeViolation, List.replicate 2049 0) :=
  (spec_c3 (List.replicate 2049 0)).2 (by rw [List.length_replicate]; omega)

/-- C10: whenever Dsmr5Codec::decode extracts a frame, the raw frame
(before padding) is at most 2048 bytes long, so resizing pads rather than
truncates, the padded frame is exactly 2048 bytes, and the conversion to
the fixed 2048-byte array (the unwrap at decoder.rs line 47) cannot
fail. -/
theorem spec_c10 (src : List Byte) (f rest : List Byte)
    (h : Dsmr5Codec.decode src = (DecodeOut.frame f, rest)) :
    f.length = 2048 ∧
    ∃ raw : List Byte, raw.length ≤ 2048 ∧ f = raw ++ List.replicate (2048 - raw.length) 0 := by
  unfold Dsmr5Codec.decode at h
  by_cases hlen : 2048 < src.length
  · rw [if_pos hlen] at h
    simp at h
  · rw [if_neg hlen] at h
    split at h
    · simp at h
    · rename_i optA index hf
      dsimp only at h
      split at h
      · simp at h
      · rename_i optB j hg
        split at h
        · simp at h
        · rename_i hge
          rw [Prod.mk.injEq] at h
          obtain ⟨hfr, hrest⟩ := h
          have hf2 : f = resize ((src.drop index).take (j + 7)) 2048 := by
            cases hfr
            rfl
          have hrawlen : ((src.drop index).take (j + 7)).length ≤ 2048 := by
            rw [List.length_take]
            have := List.length_drop index src
            omega
          subst hf2
          constructor
          · simp only [resize, List.length_append, List.length_take,
              List.length_replicate]
            omega
          · refine ⟨(src.drop index).take (j + 7), hrawlen, ?_⟩
            unfold resize
            rw [List.take_of_length_le hrawlen]

/-! ## Helper facts about findIdx? for the framing claims -/

theorem findIdx?_some_facts {xs : List α} {p : α → Bool} {i : Nat}
    (h : xs.findIdx? p = some i) :
    i < xs.length ∧ (∃ x, xs[i]? = some x ∧ p x = true) ∧
      ∀ k, k < i → ∀ x, xs[k]? = some x → p x = false := by
  rw [List.findIdx?_eq_some_iff_getElem] at h
  obtain ⟨hlt, hp, hmin⟩ := h
  refine ⟨hlt, ⟨xs[i], by simp [hlt], hp⟩, ?_⟩
  intro k hk x hx
  have hk2 : k < xs.length := by omega
  rw [List.getElem?_eq_getElem hk2] at hx
  have hmk := hmin k hk
  cases hx
  simpa using hmk

theorem findIdx?_le_of_found {xs : List α} {p : α → Bool} {k : Nat} {x : α}
    (hx : xs[k]? = some x) (hp : p x = true) :
    ∃ i, i ≤ k ∧ xs.findIdx? p = some i := by
  obtain ⟨hk, hxk⟩ := List.getElem?_eq_some_iff.mp hx
  have hex : ∃ y, y ∈ xs ∧ p y := ⟨x, by rw [← hxk]; exact List.getElem_mem hk, hp⟩
  have hfi := List.findIdx?_eq_some_of_exists hex
  refine ⟨xs.findIdx p, ?_, hfi⟩
  obtain ⟨hlt, hp2, hmin⟩ := List.findIdx?_eq_some_iff_getElem.mp hfi
  by_contra hgt
  push_neg at hgt
  have hmk := hmin k hgt
  rw [hxk] at hmk
  exact hmk hp

/-! ## Outcome lemmas for the decoder -/

theorem decode_frame_of (src : List Byte) (hlen : ¬2048 < src.length) (i j : Nat)
    (hf : src.findIdx? (fun x => x == startMarker) = some i)
    (hg : (src.drop i).findIdx? (fun x => x == endMarker) = some j)
    (hge : j + 7 ≤ (src.drop i).length) :
    Dsmr5Codec.decode src =
      (DecodeOut.frame (resize ((src.drop i).take (j + 7)) 2048),
        (src.drop i).drop (j + 7)) := by
  unfold Dsmr5Codec.decode
  rw [if_neg hlen, hf]
  dsimp only
  rw [hg]
  dsimp only
  rw [if_neg (by omega)]

theorem decode_needMore_noStart (src : List Byte) (hlen : ¬2048 < src.length)
    (hf : src.findIdx? (fun x => x == startMarker) = none) :
    Dsmr5Codec.decode src = (DecodeOut.needMore, src) := by
  unfold Dsmr5Codec.decode
  rw [if_neg hlen, hf]

theorem decode_needMore_noEnd (src : List Byte) (hlen : ¬2048 < src.length) (i : Nat)
    (hf : src.findIdx? (fun x => x == startMarker) = some i)
    (hg : (src.drop i).findIdx? (fun x => x == endMarker) = none) :
    Dsmr5Codec.decode src = (DecodeOut.needMore, src.drop i) := by
  unfold Dsmr5Codec.decode
  rw [if_neg hlen, hf]
  dsimp only
  rw [hg]

theorem decode_needMore_short (src : List Byte) (hlen : ¬2048 < src.length) (i j : Nat)
    (hf : src.findIdx? (fun x => x == startMarker) = some i)
    (hg : (src.drop i).findIdx? (fun x => x == endMarker) = some j)
    (hlt : (src.drop i).length < j + 7) :
    Dsmr5Codec.decode src = (DecodeOut.needMore, src.drop i) := by
  unfold Dsmr5Codec.decode
  rw [if_neg hlen, hf]
  dsimp only
  rw [hg]
  dsimp only
  rw [if_pos hlt]

/-- C4: for every buffer of length at most the maximum frame size,
Dsmr5Codec::decode extracts a frame exactly when the buffer contains a
start marker followed later by an end marker with at least 7 bytes
buffered from the end marker onward; the emitted frame spans from the
first start marker to exactly 7 bytes past the (first) end-marker offset,
zero-padded to the fixed 2048-byte width, the bytes preceding the start
marker are silently discarded and exactly the frame bytes are removed
from the buffer; in every other case decode reports need-more-data
(Ok(None)), not an error. -/
theorem spec_c4 (b : List Byte) (hlen : b.length ≤ 2048) :
    ((∃ f rest, Dsmr5Codec.decode b = (DecodeOut.frame f, rest)) ↔
      (∃ p, p + 7 ≤ b.length ∧ b[p]? = some endMarker ∧
        ∃ i, i < p ∧ b[i]? = some startMarker)) ∧
    (∀ i j, b.findIdx? (fun x => x == startMarker) = some i →
      (b.drop i).findIdx? (fun x => x == endMarker) = some j →
      j + 7 ≤ (b.drop i).length →
      Dsmr5Codec.decode b =
        (DecodeOut.frame (resize ((b.drop i).take (j + 7)) 2048),
          (b.drop i).drop (j + 7))) ∧
    ((¬∃ p, p + 7 ≤ b.length ∧ b[p]? = some endMarker ∧
        ∃ i, i < p ∧ b[i]? = some startMarker) →
      ∃ b1, Dsmr5Codec.decode b = (DecodeOut.needMore, b1)) := by
  have hlen2 : ¬2048 < b.length := by omega
  have hcond_of : ∀ i j, b.findIdx? (fun x => x == startMarker) = some i →
      (b.drop i).findIdx? (fun x => x == endMarker) = some j →
      j + 7 ≤ (b.drop i).length →
      ∃ p, p + 7 ≤ b.length ∧ b[p]? = some endMarker ∧
        ∃ i2, i2 < p ∧ b[i2]? = some startMarker := by
    intro i j hf hg hge
    obtain ⟨hilt, ⟨xi, hxi, hpi⟩, -⟩ := findIdx?_some_facts hf
    obtain ⟨hjlt, ⟨xj, hxj, hpj⟩, -⟩ := findIdx?_some_facts hg
    rw [List.getElem?_drop] at hxj
    have hxi47 : xi = startMarker := by simpa using hpi
    have hxj33 : xj = endMarker := by simpa using hpj
    subst hxi47
    subst hxj33
    have hjne : j ≠ 0 := by
      intro h0
      subst h0
      rw [Nat.add_zero] at hxj
      rw [hxi] at hxj
      simp [startMarker, endMarker] at hxj
    have hdl : (b.drop i).length = b.length - i := List.length_drop i b
    refine ⟨i + j, by omega, hxj, i, by omega, hxi⟩
  refine ⟨⟨?_, ?_⟩, ?_, ?_⟩
  · rintro ⟨f, rest, h⟩
    cases hf : b.findIdx? (fun x => x == startMarker) with
    | none =>
      rw [decode_needMore_noStart b hlen2 hf] at h
      simp at h
    | some i =>
      cases hg : (b.drop i).findIdx? (fun x => x == endMarker) with
      | none =>
        rw [decode_needMore_noEnd b hlen2 i hf hg] at h
        simp at h
      | some j =>
        by_cases hge : j + 7 ≤ (b.drop i).length
        · exact hcond_of i j hf hg hge
        · rw [decode_needMore_short b hlen2 i j hf hg (by omega)] at h
          simp at h
  · rintro ⟨p, hp7, hpE, i0, hi0p, hi0S⟩
    obtain ⟨i, hii0, hf⟩ :=
      findIdx?_le_of_found (p := fun x => x == startMarker) hi0S (by simp)
    have hdropE : (b.drop i)[p - i]? = some endMarker := by
      rw [List.getElem?_drop]
      have hip : i + (p - i) = p := by omega
      rw [hip]
      exact hpE
    obtain ⟨j, hjpi, hg⟩ :=
      findIdx?_le_of_found (p := fun x => x == endMarker) hdropE (by simp)
    have hdl : (b.drop i).length = b.length - i := List.length_drop i b
    have hge : j + 7 ≤ (b.drop i).length := by omega
    exact ⟨_, _, decode_frame_of b hlen2 i j hf hg hge⟩
  · intro i j hf hg hge
    exact decode_frame_of b hlen2 i j hf hg hge
  · intro hnc
    cases hf : b.findIdx? (fun x => x == startMarker) with
    | none => exact ⟨b, decode_needMore_noStart b hlen2 hf⟩
    | some i =>
      cases hg : (b.drop i).findIdx? (fun x => x == endMarker) with
      | none => exact ⟨b.drop i, decode_needMore_noEnd b hlen2 i hf hg⟩
      | some j =>
        by_cases hge : j + 7 ≤ (b.drop i).length
        · exact absurd (hcond_of i j hf hg hge) hnc
        · exact ⟨b.drop i, decode_needMore_short b hlen2 i j hf hg (by omega)⟩

/-- C4 witness: a buffer with one garbage byte, a start marker, an end
marker and six trailing bytes decodes to the padded frame spanning from
the start marker, with the garbage discarded and the buffer emptied. -/
theorem spec_c4_witness :
    Dsmr5Codec.decode [65, 47, 33, 9, 9, 9, 9, 9, 8] =
      (DecodeOut.frame
        (resize (([65, 47, 33, 9, 9, 9, 9, 9, 8].drop 1).take (1 + 7)) 2048),
        ([65, 47, 33, 9, 9, 9, 9, 9, 8].drop 1).drop (1 + 7)) :=
  (spec_c4 [65, 47, 33, 9, 9, 9, 9, 9, 8] (by simp)).2.1 1 1 (by rfl) (by rfl)
    (by simp)

/-! ## The read loop and the scrape handler (src/main.rs) -/

/-- One iteration of the read-loop body of `read` (src/main.rs lines
82-91): an Ok frame is applied to the metrics store, an Err item is
logged and the loop continues with the metrics unchanged (the error
payload is opaque to the loop). The Option result propagates the panic
modelling of Metrics.update. -/
def readStep (m : Metrics) (item : Except Unit State) : Option Metrics :=
  match item with
  | Except.ok frame => m.update frame
  | Except.error _ => some m

/-- C8: when the extracted frame fails structural decoding,
Dsmr5Codec::decode returns the malformed-telegram error with the frame
bytes already removed from the buffer (the buffer handed back is the one
produced by the extraction), and the read loop treats any error item by
leaving the metrics unchanged and continuing, without touching the
remaining buffered bytes of the connection. -/
theorem spec_c8 (toState : List Byte → Option State) (src f b : List Byte)
    (hframe : Dsmr5Codec.decode src = (DecodeOut.frame f, b))
    (hparse : toState f = none) :
    Dsmr5Codec.decodeFull toState src = (DecodeResult.malformed, b) ∧
    ∀ m : Metrics, readStep m (Except.error ()) = some m := by
  constructor
  · unfold Dsmr5Codec.decodeFull
    rw [hframe]
    dsimp only
    rw [hparse]
  · intro m
    rfl

/-- C8 witness: a frame extracted from a concrete buffer whose parse is
refused yields the malformed error with the emptied buffer. -/
theorem spec_c8_witness :
    Dsmr5Codec.decodeFull (fun _ => none) [65, 47, 33, 9, 9, 9, 9, 9, 9] =
      (DecodeResult.malformed, []) ∧
    ∀ m : Metrics, readStep m (Except.error ()) = some m :=
  spec_c8 (fun _ => none) [65, 47, 33, 9, 9, 9, 9, 9, 9]
    (resize [47, 33, 9, 9, 9, 9, 9, 9] 2048) [] rfl rfl

/-- METRICS_TTL (src/metrics.rs line 10): the freshness window, in
milliseconds. -/
def METRICS_TTL : Nat := 10000

/-- The INTERNAL_SERVER_ERROR HTTP status. -/
def INTERNAL_SERVER_ERROR : Nat := 500

/-- The scrape handler (src/main.rs lines 127-138). Wall-clock elapsed
time since last_update is a parameter in milliseconds; the external
prometheus text encoding (Metrics::encode, src/metrics.rs lines 314-320)
is a parameter whose failure is opaque. -/
def handler (elapsedMillis : Nat) (encodeResult : Except Unit String) : Except Nat String :=
  if METRICS_TTL < elapsedMillis then Except.ok ""
  else encodeResult.mapError (fun _ => INTERNAL_SERVER_ERROR)

/-- C7: a scrape whose elapsed time since last_update exceeds the
10-second freshness window returns an empty body as a success, not an
error; within the window the handler returns the text-encoded snapshot,
and an encoding failure surfaces as the internal-server-error status. -/
theorem spec_c7 (elapsedMillis : Nat) (encodeResult : Except Unit String) :
    (METRICS_TTL < elapsedMillis → handler elapsedMillis encodeResult = Except.ok "") ∧
    (elapsedMillis ≤ METRICS_TTL →
      (∀ body, encodeResult = Except.ok body →
        handler elapsedMillis encodeResult = Except.ok body) ∧
      (∀ e, encodeResult = Except.error e →
        handler elapsedMillis encodeResult = Except.error INTERNAL_SERVER_ERROR)) := by
  constructor
  · intro h
    unfold handler
    rw [if_pos h]
  · intro h
    constructor
    · intro body hb
      subst hb
      unfold handler
      rw [if_neg (by omega)]
      rfl
    · intro e he
      subst he
      unfold handler
      rw [if_neg (by omega)]
      rfl

/-- C7 witness: a stale scrape (15 s) returns the empty body, a fresh one
(5 s) the encoded snapshot, and a fresh one with a failing encoder the
500 status. -/
theorem spec_c7_witness :
    handler 15000 (Except.ok "snapshot") = Except.ok "" ∧
    handler 5000 (Except.ok "snapshot") = Except.ok "snapshot" ∧
    handler 5000 (Except.error ()) = Except.error INTERNAL_SERVER_ERROR :=
  ⟨(spec_c7 15000 (Except.ok "snapshot")).1 (by norm_num [METRICS_TTL]),
   ((spec_c7 5000 (Except.ok "snapshot")).2 (by norm_num [METRICS_TTL])).1 "snapshot" rfl,
   ((spec_c7 5000 (Except.error ())).2 (by norm_num [METRICS_TTL])).2 () rfl⟩

/-- C10 witness: a concrete 9-byte buffer starting at the start marker
extracts a frame whose padded form has length exactly 2048 and is the raw
frame extended with zeroes. -/
theorem spec_c10_witness :
    Dsmr5Codec.decode [47, 1, 33, 0, 0, 0, 0, 0, 0] =
      (DecodeOut.frame (resize [47, 1, 33, 0, 0, 0, 0, 0, 0] 2048), []) ∧
    ((resize [47, 1, 33, 0, 0, 0, 0, 0, 0] 2048).length = 2048 ∧
      ∃ raw : List Byte, raw.length ≤ 2048 ∧
        resize [47, 1, 33, 0, 0, 0, 0, 0, 0] 2048 =
          raw ++ List.replicate (2048 - raw.length) 0) :=
  ⟨rfl, spec_c10 [47, 1, 33, 0, 0, 0, 0, 0, 0]
    (resize [47, 1, 33, 0, 0, 0, 0, 0, 0] 2048) [] rfl⟩

/-! ## Infrastructure for the metric-store claims -/

theorem atLabel?_zero_succ (xs : List α) (k : Nat) (hk : k < xs.length) :
    atLabel? xs 0 (k + 1) = some xs[k] := by
  unfold atLabel?
  rw [if_pos (by omega)]
  simp [List.getElem?_eq_getElem hk]

/-- Pointwise order on the counter instruments of two metric states: the
two energy counter maps, the two power-failure counters, the two
per-phase sag/swell counter maps and the gas counter. -/
def countersLE (m m2 : Metrics) : Prop :=
  (∀ l, m.energy_delivered_joules_total l ≤ m2.energy_delivered_joules_total l) ∧
  (∀ l, m.energy_received_joules_total l ≤ m2.energy_received_joules_total l) ∧
  m.power_failures_total ≤ m2.power_failures_total ∧
  m.power_long_failures_total ≤ m2.power_long_failures_total ∧
  (∀ l, m.phase_voltage_sags_total l ≤ m2.phase_voltage_sags_total l) ∧
  (∀ l, m.phase_voltage_swells_total l ≤ m2.phase_voltage_swells_total l) ∧
  m.gas_delivered_cubic_meters_total ≤ m2.gas_delivered_cubic_meters_total

theorem countersLE_refl (m : Metrics) : countersLE m m :=
  ⟨fun _ => le_refl _, fun _ => le_refl _, le_refl _, le_refl _,
    fun _ => le_refl _, fun _ => le_refl _, le_refl _⟩

theorem countersLE_trans {a b c : Metrics} (h1 : countersLE a b) (h2 : countersLE b c) :
    countersLE a c := by
  obtain ⟨p1, p2, p3, p4, p5, p6, p7⟩ := h1
  obtain ⟨q1, q2, q3, q4, q5, q6, q7⟩ := h2
  exact ⟨fun l => le_trans (p1 l) (q1 l), fun l => le_trans (p2 l) (q2 l),
    le_trans p3 q3, le_trans p4 q4, fun l => le_trans (p5 l) (q5 l),
    fun l => le_trans (p6 l) (q6 l), le_trans p7 q7⟩

/-- Applying a sequence of snapshots in order (the read loop applies each
decoded snapshot with Metrics::update); a panic anywhere aborts the
run. -/
def updateSeq (m : Metrics) (ss : List State) : Option Metrics :=
  match ss with
  | [] => some m
  | s :: rest => (m.update s).bind (fun m2 => updateSeq m2 rest)

/-- Along a run, every snapshot reports, for each counter with a present
field, an absolute value at least the counter value stored at the moment
the snapshot is applied (equivalently: the counters of the state before
each step are below those after it). -/
def runOk : List State → Metrics → Prop
  | [], _ => True
  | s :: rest, m => countersLE m (updateResult s m) ∧ runOk rest (updateResult s m)

theorem linesOk_of (ls : List Line) : ∀ (i : Nat) (sags swells : Nat → Nat),
    (∀ k, (hk : k < ls.length) →
      (∀ v, ls[k].voltage_sags = some v → sags (i + 1 + k) ≤ v) ∧
      (∀ v, ls[k].voltage_swells = some v → swells (i + 1 + k) ≤ v)) →
    linesOk i ls sags swells = true := by
  induction ls with
  | nil =>
    intro i sags swells _
    rfl
  | cons line rest ih =>
    intro i sags swells h
    have h0 := h 0 (by simp)
    simp only [List.getElem_cons_zero, Nat.add_zero] at h0
    simp only [linesOk, Bool.and_eq_true]
    constructor
    · unfold lineOk
      simp only [Bool.and_eq_true]
      constructor
      · cases hs : line.voltage_sags with
        | none => rfl
        | some v =>
          simp only [okOpt_some, decide_eq_true_eq]
          exact h0.1 v hs
      · cases hs : line.voltage_swells with
        | none => rfl
        | some v =>
          simp only [okOpt_some, decide_eq_true_eq]
          exact h0.2 v hs
    · apply ih (i + 1)
      intro k hk
      have hk1 : k + 1 < (line :: rest).length := by
        simp only [List.length_cons]
        omega
      have hkk := h (k + 1) hk1
      simp only [List.getElem_cons_succ] at hkk
      have hidx : i + 1 + (k + 1) = i + 1 + 1 + k := by omega
      rw [hidx] at hkk
      exact hkk

theorem updOpt_idem (o : Option β) (conv : β → γ) (old : γ) :
    updOpt o conv (updOpt o conv old) = updOpt o conv old := by
  cases o <;> rfl

theorem mapAfter_idem (sel : α → Option β) (conv : β → γ) (xs : List α) (i : Nat)
    (old : Nat → γ) :
    mapAfter sel conv xs i (mapAfter sel conv xs i old) = mapAfter sel conv xs i old := by
  funext l
  cases hA : atLabel? xs i l with
  | none =>
    rw [mapAfter_at_none _ _ _ hA]
  | some x =>
    rw [mapAfter_at_some _ _ _ hA, mapAfter_at_some _ _ _ hA]
    exact updOpt_idem _ _ _

theorem gasValue_idem (slaves : List Slave) (old : ℚ) :
    gasValue slaves (gasValue slaves old) = gasValue slaves old := by
  unfold gasValue
  cases hf : slaves.find? (fun slave => slave.device_type == some 3) with
  | none =>
    simp only [updOpt_none]
  | some gs =>
    simp only [updOpt_some]
    exact updOpt_idem _ _ _

theorem updateResult_idem (s : State) (m : Metrics) :
    updateResult s (updateResult s m) = updateResult s m := by
  refine Metrics.ext ?_ ?_ ?_ ?_ ?_ ?_ ?_ ?_ ?_ ?_ ?_ ?_ ?_ ?_ <;>
    dsimp only [updateResult] <;>
    first
      | exact mapAfter_idem _ _ _ _ _
      | exact updOpt_idem _ _ _
      | exact gasValue_idem _ _

theorem updateOk_self (s : State) (m : Metrics) :
    updateOk s (updateResult s m) = true := by
  unfold updateOk failuresOk
  simp only [Bool.and_eq_true]
  refine ⟨⟨?_, ?_⟩, ?_⟩
  · cases hp : s.power_failures with
    | none => rfl
    | some v =>
      dsimp only [updateResult]
      rw [hp, updOpt_some, okOpt_some]
      simp
  · cases hp : s.long_power_failures with
    | none => rfl
    | some v =>
      dsimp only [updateResult]
      rw [hp, updOpt_some, okOpt_some]
      simp
  · apply linesOk_of
    intro k hk
    constructor
    · intro v hv
      have hidx : 0 + 1 + k = k + 1 := by omega
      rw [hidx]
      dsimp only [updateResult]
      rw [mapAfter_at_some _ _ _ (atLabel?_zero_succ s.lines k hk), hv, updOpt_some]
    · intro v hv
      have hidx : 0 + 1 + k = k + 1 := by omega
      rw [hidx]
      dsimp only [updateResult]
      rw [mapAfter_at_some _ _ _ (atLabel?_zero_succ s.lines k hk), hv, updOpt_some]

theorem update_mono (m : Metrics) (s : State) (h : countersLE m (updateResult s m)) :
    m.update s = some (updateResult s m) := by
  obtain ⟨hd, hr, hpf, hplf, hsag, hsw, hgas⟩ := h
  rw [Metrics.update_eq, if_pos ?_]
  unfold updateOk failuresOk
  simp only [Bool.and_eq_true]
  refine ⟨⟨?_, ?_⟩, ?_⟩
  · cases hp : s.power_failures with
    | none => rfl
    | some v =>
      rw [okOpt_some, decide_eq_true_eq]
      dsimp only [updateResult] at hpf
      rw [hp, updOpt_some] at hpf
      exact hpf
  · cases hp : s.long_power_failures with
    | none => rfl
    | some v =>
      rw [okOpt_some, decide_eq_true_eq]
      dsimp only [updateResult] at hplf
      rw [hp, updOpt_some] at hplf
      exact hplf
  · apply linesOk_of
    intro k hk
    constructor
    · intro v hv
      have hidx : 0 + 1 + k = k + 1 := by omega
      rw [hidx]
      have h2 := hsag (k + 1)
      dsimp only [updateResult] at h2
      rw [mapAfter_at_some _ _ _ (atLabel?_zero_succ s.lines k hk), hv, updOpt_some] at h2
      exact h2
    · intro v hv
      have hidx : 0 + 1 + k = k + 1 := by omega
      rw [hidx]
      have h2 := hsw (k + 1)
      dsimp only [updateResult] at h2
      rw [mapAfter_at_some _ _ _ (atLabel?_zero_succ s.lines k hk), hv, updOpt_some] at h2
      exact h2

/-! ## Claims about the metric store -/

/-- A snapshot with every field absent, used to build concrete witness
snapshots. -/
def emptyState : State :=
  { meterreadings := [], tariff_indicator := none, power_delivered := none,
    power_received := none, power_failures := none, long_power_failures := none,
    lines := [], slaves := [] }

/-- C1 (amended): for every sequence of snapshots in which each snapshot
reports, for every counter field it carries, an absolute value at least
the counter value stored at the moment it is applied (runOk), every
update succeeds and no counter instrument's externally observable value
ever decreases across the run. Without that restriction the property is
false: see the counterexample, where a lower reported absolute value
decreases the counter, because the source applies the raw difference
without clamping. -/
theorem spec_c1 (ss : List State) (m : Metrics) (h : runOk ss m) :
    ∃ m2, updateSeq m ss = some m2 ∧ countersLE m m2 := by
  induction ss generalizing m with
  | nil => exact ⟨m, rfl, countersLE_refl m⟩
  | cons s rest ih =>
    obtain ⟨h1, h2⟩ := h
    obtain ⟨m2, hseq, hle⟩ := ih (updateResult s m) h2
    refine ⟨m2, ?_, countersLE_trans h1 hle⟩
    simp only [updateSeq]
    rw [update_mono m s h1, Option.some_bind]
    exact hseq

/-- First counterexample snapshot: energy delivered 2 kWh at tariff 1. -/
def c1a : State := { emptyState with meterreadings := [{ to_ := some 2, by_ := none }] }

/-- Second counterexample snapshot: energy delivered 1 kWh at tariff 1,
lower than the previously reported absolute value. -/
def c1b : State := { emptyState with meterreadings := [{ to_ := some 1, by_ := none }] }

/-- C1 counterexample: applying a snapshot that reports a lower absolute
energy value than the one already stored makes the exported
energy_delivered_joules_total counter decrease (7 200 000 J down to
3 600 000 J), refuting the unconditional monotonicity claim on the code
as written. -/
theorem spec_c1_counterexample :
    ∃ m1 m2 : Metrics,
      Metrics.new.update c1a = some m1 ∧
      m1.update c1b = some m2 ∧
      m2.energy_delivered_joules_total 1 < m1.energy_delivered_joules_total 1 := by
  have h1 : Metrics.new.update c1a = some (updateResult c1a Metrics.new) := by
    rw [Metrics.update_eq, if_pos (by decide)]
  have h2 : (updateResult c1a Metrics.new).update c1b =
      some (updateResult c1b (updateResult c1a Metrics.new)) := by
    rw [Metrics.update_eq, if_pos (by decide)]
  have hA : (updateResult c1a Metrics.new).energy_delivered_joules_total 1 =
      2 * 3600000 := by
    dsimp only [updateResult]
    rw [mapAfter_at_some _ _ _
      (atLabel?_zero_succ c1a.meterreadings 0 (by simp [c1a, emptyState]))]
    simp [c1a, emptyState]
  have hB : (updateResult c1b (updateResult c1a Metrics.new)).energy_delivered_joules_total 1 =
      1 * 3600000 := by
    dsimp only [updateResult]
    rw [mapAfter_at_some _ _ _
      (atLabel?_zero_succ c1b.meterreadings 0 (by simp [c1b, emptyState]))]
    simp [c1b, emptyState]
  refine ⟨_, _, h1, h2, ?_⟩
  rw [hA, hB]
  norm_num

/-- First witness snapshot: gas reading 10 cubic meters. -/
def c1w1 : State :=
  { emptyState with slaves := [{ device_type := some 3, meter_reading := some ((), 10) }] }

/-- Second witness snapshot: gas reading 11 cubic meters. -/
def c1w2 : State :=
  { emptyState with slaves := [{ device_type := some 3, meter_reading := some ((), 11) }] }

/-- C1 witness: a run of two snapshots with non-decreasing gas readings
(10 then 11 cubic meters) satisfies runOk, succeeds, and leaves all
counters at least where they started. -/
theorem spec_c1_witness :
    runOk [c1w1, c1w2] Metrics.new ∧
    ∃ m2, updateSeq Metrics.new [c1w1, c1w2] = some m2 ∧ countersLE Metrics.new m2 := by
  have hrun : runOk [c1w1, c1w2] Metrics.new := by
    refine ⟨⟨?_, ?_, ?_, ?_, ?_, ?_, ?_⟩, ⟨?_, ?_, ?_, ?_, ?_, ?_, ?_⟩, trivial⟩ <;>
      first
        | (intro l
           simp [updateResult, mapAfter_nil, Metrics.new, c1w1, c1w2, emptyState])
        | decide
  exact ⟨hrun, spec_c1 [c1w1, c1w2] Metrics.new hrun⟩

/-- C2: applying Metrics::update twice with the same snapshot leaves
every exported instrument value as after the first application (each
counter reflects the most recently reported cumulative value, not an
accumulation of deltas); and re-applying a snapshot whose present fields
all equal the values already stored (updateResult s m = m) changes
nothing at all. -/
theorem spec_c2 (s : State) (m : Metrics) :
    (∀ m2, m.update s = some m2 → m2.update s = some m2) ∧
    (updateResult s m = m → m.update s = some m) := by
  constructor
  · intro m2 h
    rw [Metrics.update_eq] at h
    split at h
    · injection h with h
      subst h
      rw [Metrics.update_eq, if_pos (updateOk_self s m), updateResult_idem]
    · exact absurd h (by simp)
  · intro hfix
    have hok := updateOk_self s m
    rw [hfix] at hok
    rw [Metrics.update_eq, if_pos hok, hfix]

/-- Witness snapshot for idempotence: energy, power and power-failure
fields present. -/
def c2s : State :=
  { emptyState with
    meterreadings := [{ to_ := some 2, by_ := some 3 }],
    power_delivered := some (3 / 2),
    power_failures := some 4 }

/-- C2 witness: a concrete duplicate application reaches the same state
as the first application. -/
theorem spec_c2_witness :
    ∃ m1, Metrics.new.update c2s = some m1 ∧ m1.update c2s = some m1 := by
  have h : Metrics.new.update c2s = some (updateResult c2s Metrics.new) := by
    rw [Metrics.update_eq, if_pos (by decide)]
  exact ⟨_, h, (spec_c2 c2s Metrics.new).1 _ h⟩

/-- C5: when the meter reading at tariff index i carries a present
delivered (resp. received) value v in kWh and the update succeeds, the
energy counter labelled i + 1 ends at exactly v × 3 600 000 joules (the
difference-based increment lands on the absolute value). -/
theorem spec_c5 (s : State) (m m2 : Metrics) (i : Nat) (r : MeterReading)
    (hr : s.meterreadings[i]? = some r) (hu : m.update s = some m2) :
    (∀ v, r.to_ = some v → m2.energy_delivered_joules_total (i + 1) = v * 3600000) ∧
    (∀ v, r.by_ = some v → m2.energy_received_joules_total (i + 1) = v * 3600000) := by
  rw [Metrics.update_eq] at hu
  split at hu
  · injection hu with hu
    subst hu
    have hL : atLabel? s.meterreadings 0 (i + 1) = some r := by
      unfold atLabel?
      rw [if_pos (by omega)]
      simpa using hr
    constructor
    · intro v hv
      dsimp only [updateResult]
      rw [mapAfter_at_some _ _ _ hL, hv, updOpt_some]
    · intro v hv
      dsimp only [updateResult]
      rw [mapAfter_at_some _ _ _ hL, hv, updOpt_some]
  · exact absurd hu (by simp)

/-- Witness snapshot for C5: 2 kWh delivered and 3 kWh received at
tariff index 0. -/
def c5s : State := { emptyState with meterreadings := [{ to_ := some 2, by_ := some 3 }] }

/-- C5 witness: the tariff-1 counters land on 7 200 000 J and
10 800 000 J. -/
theorem spec_c5_witness :
    ∃ m2, Metrics.new.update c5s = some m2 ∧
      m2.energy_delivered_joules_total 1 = 2 * 3600000 ∧
      m2.energy_received_joules_total 1 = 3 * 3600000 := by
  have h : Metrics.new.update c5s = some (updateResult c5s Metrics.new) := by
    rw [Metrics.update_eq, if_pos (by decide)]
  refine ⟨_, h, ?_, ?_⟩
  · exact (spec_c5 c5s Metrics.new _ 0 { to_ := some 2, by_ := some 3 } rfl h).1 2 rfl
  · exact (spec_c5 c5s Metrics.new _ 0 { to_ := some 2, by_ := some 3 } rfl h).2 3 rfl

/-- C6: a present power_delivered (resp. power_received) value v in kW
overwrites the corresponding gauge with v × 1000 watts, whatever the
gauge held before (the conclusion does not depend on m). -/
theorem spec_c6 (s : State) (m m2 : Metrics) (hu : m.update s = some m2) :
    (∀ v, s.power_delivered = some v → m2.power_delivered_watts = v * 1000) ∧
    (∀ v, s.power_received = some v → m2.power_received_watts = v * 1000) := by
  rw [Metrics.update_eq] at hu
  split at hu
  · injection hu with hu
    subst hu
    constructor <;>
      · intro v hv
        dsimp only [updateResult]
        rw [hv, updOpt_some]
  · exact absurd hu (by simp)

/-- Witness snapshot for C6: power_delivered = 1.5 kW. -/
def c6s : State := { emptyState with power_delivered := some (3 / 2) }

/-- C6 witness: the spec scenario — a snapshot reporting
power_delivered = 1.5 makes power_delivered_watts read exactly 1500. -/
theorem spec_c6_witness :
    ∃ m2, Metrics.new.update c6s = some m2 ∧ m2.power_delivered_watts = 1500 := by
  have h : Metrics.new.update c6s = some (updateResult c6s Metrics.new) := by
    rw [Metrics.update_eq, if_pos (by decide)]
  refine ⟨_, h, ?_⟩
  have hv := (spec_c6 c6s Metrics.new _ h).1 (3 / 2) rfl
  rw [hv]
  norm_num

/-- C9: the difference-based updates of the unsigned-integer counters
subtract without a guard (checkedSub models the u64 subtraction, whose
underflow panics); whenever every present integer field is at least the
corresponding counter's current value, no subtraction underflows and
Metrics::update returns a state rather than panicking. -/
theorem spec_c9 (s : State) (m : Metrics)
    (hpf : ∀ v, s.power_failures = some v → m.power_failures_total ≤ v)
    (hplf : ∀ v, s.long_power_failures = some v → m.power_long_failures_total ≤ v)
    (hlines : ∀ k, (hk : k < s.lines.length) →
      (∀ v, s.lines[k].voltage_sags = some v → m.phase_voltage_sags_total (k + 1) ≤ v) ∧
      (∀ v, s.lines[k].voltage_swells = some v → m.phase_voltage_swells_total (k + 1) ≤ v)) :
    ∃ m2, m.update s = some m2 := by
  rw [Metrics.update_eq]
  rw [if_pos ?_]
  · exact ⟨_, rfl⟩
  unfold updateOk failuresOk
  simp only [Bool.and_eq_true]
  refine ⟨⟨?_, ?_⟩, ?_⟩
  · cases hp : s.power_failures with
    | none => rfl
    | some v =>
      rw [okOpt_some, decide_eq_true_eq]
      exact hpf v hp
  · cases hp : s.long_power_failures with
    | none => rfl
    | some v =>
      rw [okOpt_some, decide_eq_true_eq]
      exact hplf v hp
  · apply linesOk_of
    intro k hk
    have hidx : 0 + 1 + k = k + 1 := by omega
    rw [hidx]
    exact hlines k hk

/-- Witness snapshot for C9: integer counts 5, 7, and per-phase sag 2 and
swell 1, all at least the zero-valued fresh counters. -/
def c9line : Line :=
  { voltage_sags := some 2, voltage_swells := some 1, voltage := none,
    current := none, active_power_plus := none, active_power_neg := none }

def c9s : State :=
  { emptyState with
    power_failures := some 5,
    long_power_failures := some 7,
    lines := [c9line] }

/-- C9 witness: the fresh store satisfies the precondition and the update
succeeds. -/
theorem spec_c9_witness : ∃ m2, Metrics.new.update c9s = some m2 :=
  spec_c9 c9s Metrics.new
    (by
      intro v hv
      simp only [c9s, emptyState] at hv
      injection hv with hv
      subst hv
      decide)
    (by
      intro v hv
      simp only [c9s, emptyState] at hv
      injection hv with hv
      subst hv
      decide)
    (by
      intro k hk
      simp only [c9s, c9line, emptyState, List.length_cons, List.length_nil] at hk
      have hk0 : k = 0 := by omega
      subst hk0
      constructor
      · intro v hv
        simp only [c9s, c9line, emptyState, List.getElem_cons_zero] at hv
        injection hv with hv
        subst hv
        decide
      · intro v hv
        simp only [c9s, c9line, emptyState, List.getElem_cons_zero] at hv
        injection hv with hv
        subst hv
        decide)

end Dsmr5Exporter
